import Mathlib

/-!
Verification of the mori-field-notes daily pipeline.

Shallow embedding of the pipeline scripts:
  * scripts/collect-materials.py : the retrying request executor
    (request_with_retries), URL canonicalization (normalize_url, on top of a
    model of CPython urllib.parse urlsplit and urlunsplit), the deduplicating
    collection loop (collect_materials) and the materials writer
    (write_materials, as a file-system operation trace).
  * scripts/write-note.py : the authoring call wrapper (spawn_sessions_agent),
    the degraded writer (simulated_writer), tag choice (choose_tag) and the
    draft stage slice of main (draft_stage).
  * scripts/publish.py : JSON values (JVal) with Python dict and truthiness
    semantics, load_note, update_notes, update_state, write_json (as an
    operation trace) and the main control flow (publish_main).

Machine reals never appear: sleep durations are rationals, HTTP statuses are
naturals.  Fallible code returns Except.  Outbound I/O (the HTTP session, the
sessions_spawn collaborator, the file system) is modelled by explicit inputs:
a stream of per-attempt outcomes for the HTTP session, an outcome value for
the authoring call, and Option-valued file contents plus operation traces for
the file system.
-/

/-! ### Retrying request executor, from scripts/collect-materials.py -/

/-- MAX_RETRIES constant of collect-materials.py (line 29). -/
def MAX_RETRIES : Nat := 4

/-- BACKOFF_BASE_SECONDS constant of collect-materials.py (line 30): 1.5
seconds, as an exact rational. -/
def BACKOFF_BASE_SECONDS : ℚ := 3 / 2

/-- The Retry-After header as request_with_retries reads it on a 429:
absent, or present and parsing as a float (the parsed value carried as an
exact rational), or present but not parseable, in which case the
float(retry_after) call raises ValueError and control moves to the
except branch of the loop. -/
inductive Header429 where
  | absent
  | value (q : ℚ)
  | malformed
deriving Repr, DecidableEq

/-- An HTTP response as request_with_retries observes it: the status code and
the header values the function reads.  rateRemaining is the raw
X-RateLimit-Remaining string; rateReset is the X-RateLimit-Reset value already
parsed as an integer.  A reset header that is present but fails int parsing
makes the code fall back to wait_seconds = 0, which is observationally the
same as an absent header, so it is modelled as none. -/
structure Response where
  status : Nat
  retryAfter : Header429 := .absent
  rateRemaining : Option String := none
  rateReset : Option Int := none
deriving Repr, DecidableEq

/-- What one call of session.get produces: a raised requests.RequestException,
or a response object. -/
inductive AttemptOutcome where
  | netErr
  | resp (r : Response)
deriving Repr, DecidableEq

/-- The error request_with_retries can signal: the HTTPError raised for a 4xx
or 5xx status (re-raised at the final attempt), the ValueError from an
unparseable Retry-After header, the network-level RequestException, or the
RuntimeError raised when the loop exhausts every attempt on 429 responses. -/
inductive ReqError where
  | httpError (status : Nat)
  | netError
  | valueError
  | exhausted
deriving Repr, DecidableEq

/-- The outcome of request_with_retries. -/
inductive ReqResult where
  | ok (r : Response)
  | error (e : ReqError)
deriving Repr, DecidableEq

/-- Observable behaviour of one request_with_retries call: the result, how
many attempts were performed, and the total duration passed to time.sleep
across the call. -/
structure RunTrace where
  result : ReqResult
  attempts : Nat
  sleepTotal : ℚ
deriving Repr, DecidableEq

/-- The exponential backoff sleep of collect-materials.py line 98 and
line 122: BACKOFF_BASE_SECONDS * (2 ** (attempt - 1)). -/
def backoffSleep (attempt : Nat) : ℚ :=
  BACKOFF_BASE_SECONDS * 2 ^ (attempt - 1)

/-- The for-loop of request_with_retries (collect-materials.py lines 87-126).
fuel counts the loop iterations still available and is MAX_RETRIES at entry;
attempt is the 1-based loop variable; acc accumulates the time.sleep
durations.  The fuel-exhausted case is the fall-through to line 126, the
RuntimeError raise.  In each iteration: a 429 response sleeps the Retry-After
value when present (an unparseable value raises ValueError into the except
branch), else the exponential backoff, and continues; a 4xx or 5xx status
raises HTTPError into the except branch; the except branch re-raises at the
final attempt and otherwise sleeps the exponential backoff and retries; a
successful response first performs the cooperative self-throttle sleep of
lines 107-116 when X-RateLimit-Remaining is "0" and a reset time is
present. -/
def requestLoop (outcomes : Nat → AttemptOutcome) (now : Int) :
    Nat → Nat → ℚ → RunTrace
  | 0, _, acc => ⟨.error .exhausted, MAX_RETRIES, acc⟩
  | fuel + 1, attempt, acc =>
    let failPath (e : ReqError) : RunTrace :=
      if attempt = MAX_RETRIES then ⟨.error e, attempt, acc⟩
      else requestLoop outcomes now fuel (attempt + 1) (acc + backoffSleep attempt)
    match outcomes attempt with
    | .netErr => failPath .netError
    | .resp r =>
      if r.status = 429 then
        match r.retryAfter with
        | .malformed => failPath .valueError
        | .absent => requestLoop outcomes now fuel (attempt + 1) (acc + backoffSleep attempt)
        | .value q => requestLoop outcomes now fuel (attempt + 1) (acc + q)
      else if 400 ≤ r.status ∧ r.status < 600 then
        failPath (.httpError r.status)
      else
        let throttle : ℚ :=
          match r.rateRemaining, r.rateReset with
          | some rem, some reset => if rem = "0" then ((max 0 (reset - now) : Int) : ℚ) else 0
          | _, _ => 0
        ⟨.ok r, attempt, acc + throttle⟩

/-- request_with_retries of collect-materials.py (lines 81-126): run the
retry loop starting at attempt 1 with MAX_RETRIES iterations available and no
sleep accumulated.  now is the value of time.time() used by the
self-throttle computation. -/
def request_with_retries (outcomes : Nat → AttemptOutcome) (now : Int) : RunTrace :=
  requestLoop outcomes now MAX_RETRIES 1 0

/-- A response stream that always returns the given status with no headers. -/
def constStatus (status : Nat) : Nat → AttemptOutcome :=
  fun _ => .resp { status := status }

/-- A response stream with three bare 429 responses followed by a 200. -/
def threeRateLimits : Nat → AttemptOutcome :=
  fun n => if n ≤ 3 then .resp { status := 429 } else .resp { status := 200 }

/-- C1: the claim states that a 4xx status other than 429 (such as a single
404) makes the executor signal a permanent client error after exactly one
attempt with no backoff sleep.  Counterexample: on a stream of 404 responses,
request_with_retries performs 4 attempts and sleeps 1.5 + 3 + 6 = 10.5
seconds before raising the HTTP error, because raise_for_status raises a
requests.HTTPError, which is a requests.RequestException and is therefore
caught and retried by the except branch of the loop. -/
theorem c1_counterexample_404_is_retried :
    request_with_retries (constStatus 404) 0 =
      ⟨.error (.httpError 404), 4, 21 / 2⟩ ∧
    ¬ ((request_with_retries (constStatus 404) 0).attempts = 1 ∧
       (request_with_retries (constStatus 404) 0).sleepTotal = 0) := by
  have h : request_with_retries (constStatus 404) 0 =
      ⟨.error (.httpError 404), 4, 21 / 2⟩ := by
    simp only [request_with_retries, requestLoop, constStatus, backoffSleep,
      BACKOFF_BASE_SECONDS, MAX_RETRIES]
    norm_num
  refine ⟨h, ?_⟩
  rw [h]
  intro hc
  exact absurd hc.1 (by norm_num)

/-- C1 (amended): a 4xx response other than 429 raises an HTTP error that the
executor treats like any other transient failure: for any constant stream of
one such status, it retries with exponential backoff and signals the HTTP
error only at the final attempt, so the run performs MAX_RETRIES = 4 attempts
with total sleep 1.5 + 3 + 6 = 10.5 seconds; there is no fail-fast path for
permanent client errors. -/
theorem c1_amended_4xx_transient (status : Nat) (now : Int)
    (h400 : 400 ≤ status) (h500 : status < 500) (h429 : status ≠ 429) :
    request_with_retries (constStatus status) now =
      ⟨.error (.httpError status), MAX_RETRIES, 21 / 2⟩ := by
  have h600 : status < 600 := lt_trans h500 (by norm_num)
  simp only [request_with_retries, requestLoop, constStatus, backoffSleep,
    BACKOFF_BASE_SECONDS, MAX_RETRIES]
  simp [h429, h400, h600]
  norm_num

/-- Witness for the amended C1 theorem at the concrete status 404. -/
theorem c1_amended_4xx_transient_witness :
    request_with_retries (constStatus 404) 0 =
      ⟨.error (.httpError 404), MAX_RETRIES, 21 / 2⟩ :=
  c1_amended_4xx_transient 404 0 (by norm_num) (by norm_num) (by norm_num)

/-- C5: on a 429 with a parsed Retry-After value the loop sleeps exactly that
value before the next attempt; on a 429 without the header it sleeps
base * 2 ^ (attempt - 1); a network-level transient failure and a 5xx
response before the final attempt also sleep base * 2 ^ (attempt - 1) and
retry; and the concrete run of three bare 429 responses followed by a 200
under MAX_RETRIES = 4 and base 1.5 s performs exactly 4 attempts, succeeds,
and sleeps 1.5 + 3 + 6 = 10.5 seconds in total. -/
theorem c5_backoff_schedule :
    (∀ (outcomes : Nat → AttemptOutcome) (now : Int) (fuel attempt : Nat)
        (acc q : ℚ) (r : Response), outcomes attempt = .resp r →
        r.status = 429 → r.retryAfter = .value q →
        requestLoop outcomes now (fuel + 1) attempt acc =
          requestLoop outcomes now fuel (attempt + 1) (acc + q)) ∧
    (∀ (outcomes : Nat → AttemptOutcome) (now : Int) (fuel attempt : Nat)
        (acc : ℚ) (r : Response), outcomes attempt = .resp r →
        r.status = 429 → r.retryAfter = .absent →
        requestLoop outcomes now (fuel + 1) attempt acc =
          requestLoop outcomes now fuel (attempt + 1) (acc + backoffSleep attempt)) ∧
    (∀ (outcomes : Nat → AttemptOutcome) (now : Int) (fuel attempt : Nat)
        (acc : ℚ), outcomes attempt = .netErr → attempt ≠ MAX_RETRIES →
        requestLoop outcomes now (fuel + 1) attempt acc =
          requestLoop outcomes now fuel (attempt + 1) (acc + backoffSleep attempt)) ∧
    (∀ (outcomes : Nat → AttemptOutcome) (now : Int) (fuel attempt : Nat)
        (acc : ℚ) (r : Response), outcomes attempt = .resp r →
        500 ≤ r.status → r.status < 600 → attempt ≠ MAX_RETRIES →
        requestLoop outcomes now (fuel + 1) attempt acc =
          requestLoop outcomes now fuel (attempt + 1) (acc + backoffSleep attempt)) ∧
    request_with_retries threeRateLimits 0 = ⟨.ok { status := 200 }, 4, 21 / 2⟩ := by
  refine ⟨?_, ?_, ?_, ?_, ?_⟩
  · intro outcomes now fuel attempt acc q r hout h429 hra
    simp [requestLoop, hout, h429, hra]
  · intro outcomes now fuel attempt acc r hout h429 hra
    simp [requestLoop, hout, h429, hra]
  · intro outcomes now fuel attempt acc hout hlast
    simp [requestLoop, hout, hlast]
  · intro outcomes now fuel attempt acc r hout h500 h600 hlast
    have hne : r.status ≠ 429 := by omega
    simp [requestLoop, hout, hlast, hne, le_trans (by norm_num : (400 : Nat) ≤ 500) h500, h600]
  · simp only [request_with_retries, requestLoop, threeRateLimits, backoffSleep,
      BACKOFF_BASE_SECONDS, MAX_RETRIES]
    norm_num

/-- Witness for C5: the Retry-After branch applied at a concrete stream whose
first attempt is a 429 carrying Retry-After 7, the bare-429 branch at a
stream of plain 429 responses, the network branch and the 5xx branch at
concrete streams, and the already-closed concrete scenario. -/
theorem c5_backoff_schedule_witness :
    requestLoop (fun _ => .resp { status := 429, retryAfter := .value 7 }) 0 3 1 0 =
      requestLoop (fun _ => .resp { status := 429, retryAfter := .value 7 }) 0 2 2 (0 + 7) ∧
    requestLoop (fun _ => .resp { status := 429 }) 0 3 1 0 =
      requestLoop (fun _ => .resp { status := 429 }) 0 2 2 (0 + backoffSleep 1) ∧
    requestLoop (fun _ => .netErr) 0 3 1 0 =
      requestLoop (fun _ => .netErr) 0 2 2 (0 + backoffSleep 1) ∧
    requestLoop (constStatus 503) 0 3 1 0 =
      requestLoop (constStatus 503) 0 2 2 (0 + backoffSleep 1) :=
  ⟨c5_backoff_schedule.1 _ 0 2 1 0 7 _ rfl rfl rfl,
   c5_backoff_schedule.2.1 _ 0 2 1 0 _ rfl rfl rfl,
   c5_backoff_schedule.2.2.1 _ 0 2 1 0 rfl (by decide),
   c5_backoff_schedule.2.2.2.1 _ 0 2 1 0 _ rfl (by decide) (by decide) (by decide)⟩

/-! ### URL canonicalization, from scripts/collect-materials.py

normalize_url (lines 74-78) splits the URL with urllib.parse.urlsplit,
strips every trailing "/" from the path with str.rstrip, and reassembles
with urllib.parse.urlunsplit passing an empty fragment.  urlsplit and
urlunsplit are modelled below after their CPython sources, on lists of
characters.  Two simplifications that cannot affect the URLs this pipeline
handles: the whitespace-and-control-character pre-stripping CPython applies
to the raw URL is not modelled (the inputs here are already stripped by the
collection loop), and the ValueError raised for unbalanced IPv6 brackets in
the authority is not modelled (it only rejects malformed URLs). -/

/-- scheme_chars of urllib.parse: ASCII letters, digits, and "+", "-",
".". -/
def isSchemeChar (c : Char) : Bool :=
  c.isAlpha || c.isDigit || c = '+' || c = '-' || c = '.'

/-- Split a character list at the first character satisfying p: the
characters strictly before it and the characters strictly after it, or none
when no character satisfies p.  This is the common shape of str.find plus
slicing, and of str.split with maxsplit 1. -/
def breakAtFirst (p : Char → Bool) : List Char → Option (List Char × List Char)
  | [] => none
  | c :: cs =>
    if p c then some ([], cs)
    else match breakAtFirst p cs with
      | none => none
      | some (a, b) => some (c :: a, b)

/-- The result of urlsplit: scheme, netloc, path, query, fragment. -/
structure SplitResult where
  scheme : List Char
  netloc : List Char
  path : List Char
  query : List Char
  fragment : List Char
deriving Repr, DecidableEq

/-- Characters that terminate the netloc in urlsplit: "/", "?" and "#". -/
def isNetlocDelim (c : Char) : Bool :=
  c = '/' || c = '?' || c = '#'

/-- Python str.lower restricted to the ASCII scheme characters on which
urlsplit applies it. -/
def lowerChars (l : List Char) : List Char :=
  l.map Char.toLower

/-- Scheme extraction of urlsplit (urllib.parse): when the text before the
first ":" is nonempty, the URL starts with an ASCII letter and that text
consists of scheme characters only, it is the scheme and is lower-cased;
otherwise the scheme is empty and the URL is left whole. -/
def splitScheme (url : List Char) : List Char × List Char :=
  match breakAtFirst (fun c => c = ':') url with
  | none => ([], url)
  | some (before, after) =>
    if (! before.isEmpty) && (match url.head? with
        | some c => c.isAlpha
        | none => false) && before.all isSchemeChar then
      (lowerChars before, after)
    else ([], url)

/-- Netloc extraction of urlsplit (the _splitnetloc helper of urllib.parse):
when the remainder starts with "//", the netloc runs from there to the first
"/", "?" or "#". -/
def splitNetloc (rest : List Char) : List Char × List Char :=
  if rest.take 2 = ['/', '/'] then
    ((rest.drop 2).takeWhile (fun c => ! isNetlocDelim c),
     (rest.drop 2).dropWhile (fun c => ! isNetlocDelim c))
  else ([], rest)

/-- Fragment split of urlsplit: everything after the first "#". -/
def splitFragment (rest : List Char) : List Char × List Char :=
  match breakAtFirst (fun c => c = '#') rest with
  | none => (rest, [])
  | some (a, b) => (a, b)

/-- Query split of urlsplit: everything after the first "?". -/
def splitQuery (rest : List Char) : List Char × List Char :=
  match breakAtFirst (fun c => c = '?') rest with
  | none => (rest, [])
  | some (a, b) => (a, b)

/-- urlsplit of urllib.parse, modelled after CPython: scheme, then netloc,
then fragment, then query. -/
def urlsplit (url : List Char) : SplitResult :=
  let sr := splitScheme url
  let nr := splitNetloc sr.2
  let fr := splitFragment nr.2
  let pq := splitQuery fr.1
  ⟨sr.1, nr.1, pq.1, pq.2, fr.2⟩

/-- urlunsplit of urllib.parse, modelled after CPython: when a netloc is
present (or the path itself starts with "//"), prepend "//" and force the
path to start with "/"; prepend "scheme:" when a scheme is present; append
"?query" when the query is nonempty and "#fragment" when the fragment is
nonempty. -/
def urlunsplit (scheme netloc path query fragment : List Char) : List Char :=
  let url1 : List Char :=
    if netloc ≠ [] ∨ (path ≠ [] ∧ path.take 2 = ['/', '/']) then
      let p2 := if path ≠ [] ∧ path.take 1 ≠ ['/'] then '/' :: path else path
      '/' :: '/' :: (netloc ++ p2)
    else path
  let url2 := if scheme ≠ [] then scheme ++ ':' :: url1 else url1
  let url3 := if query ≠ [] then url2 ++ '?' :: query else url2
  if fragment ≠ [] then url3 ++ '#' :: fragment else url3

/-- Python str.rstrip with the single-character argument "/": drop every
trailing "/". -/
def rstripSlash (l : List Char) : List Char :=
  (l.reverse.dropWhile (fun c => c = '/')).reverse

/-- normalize_url of collect-materials.py (lines 74-78): split the URL,
reassemble it with every trailing slash stripped from the path and an empty
fragment, keeping the query. -/
def normalize_url (url : String) : String :=
  let parts := urlsplit url.data
  ⟨urlunsplit parts.scheme parts.netloc (rstripSlash parts.path) parts.query []⟩

example : normalize_url "http://Example.com/a/" = "http://Example.com/a" := by decide
example : normalize_url "HTTP://a.com/x#frag" = "http://a.com/x" := by decide
example : normalize_url "http://a.com/x?q=1" = "http://a.com/x?q=1" := by decide

/-! ### Round-trip facts about the urlsplit model on component-built URLs -/

/-- Components of an absolute URL of the shape the search results carry:
scheme://host path, an optional query (empty list means absent) and an
optional fragment (empty list means absent). -/
structure UrlParts where
  scheme : List Char
  host : List Char
  path : List Char
  query : List Char
  fragment : List Char
deriving Repr, DecidableEq

/-- The serialized form of the components: scheme, "://", host, path, then
"?query" when the query is nonempty and "#fragment" when the fragment is
nonempty. -/
def buildUrl (u : UrlParts) : List Char :=
  u.scheme ++ ':' :: '/' :: '/' ::
    (u.host ++ (u.path
      ++ ((if u.query.isEmpty then [] else '?' :: u.query)
        ++ (if u.fragment.isEmpty then [] else '#' :: u.fragment))))

/-- Well-formedness of the components: the scheme is nonempty, starts with an
ASCII letter and consists of scheme characters; the host is nonempty and free
of "/", "?" and "#"; the path is empty or starts with "/" and is free of "?"
and "#"; the query is free of "#". -/
def UrlParts.wf (u : UrlParts) : Bool :=
  (! u.scheme.isEmpty) &&
  (match u.scheme.head? with | some c => c.isAlpha | none => false) &&
  u.scheme.all isSchemeChar &&
  (! u.host.isEmpty) &&
  u.host.all (fun c => ! isNetlocDelim c) &&
  (u.path.isEmpty || u.path.take 1 = ['/']) &&
  u.path.all (fun c => c ≠ '?' && c ≠ '#') &&
  u.query.all (fun c => c ≠ '#')

theorem breakAtFirst_eq_none {p : Char → Bool} {l : List Char}
    (h : ∀ c ∈ l, p c = false) : breakAtFirst p l = none := by
  induction l with
  | nil => rfl
  | cons c cs ih =>
    simp [breakAtFirst, h c (by simp), ih (fun d hd => h d (by simp [hd]))]

theorem breakAtFirst_append_left {p : Char → Bool} {xs : List Char}
    (ys : List Char) (h : ∀ c ∈ xs, p c = false) :
    breakAtFirst p (xs ++ ys) =
      match breakAtFirst p ys with
      | none => none
      | some (a, b) => some (xs ++ a, b) := by
  induction xs with
  | nil =>
    simp only [List.nil_append]
    cases breakAtFirst p ys with
    | none => rfl
    | some ab => cases ab; rfl
  | cons c cs ih =>
    have hrec := ih (fun d hd => h d (by simp [hd]))
    simp only [List.cons_append, breakAtFirst, h c (by simp), Bool.false_eq_true,
      if_false, List.append_eq, hrec]
    cases breakAtFirst p ys with
    | none => rfl
    | some ab => cases ab; rfl

theorem breakAtFirst_found {p : Char → Bool} (xs : List Char) (y : Char)
    (ys : List Char) (h : ∀ c ∈ xs, p c = false) (hy : p y = true) :
    breakAtFirst p (xs ++ y :: ys) = some (xs, ys) := by
  rw [breakAtFirst_append_left (y :: ys) h]
  simp [breakAtFirst, hy]

theorem takeWhile_append_of_all {p : Char → Bool} {xs : List Char}
    (ys : List Char) (h : ∀ c ∈ xs, p c = true) :
    (xs ++ ys).takeWhile p = xs ++ ys.takeWhile p := by
  induction xs with
  | nil => simp
  | cons c cs ih =>
    simp only [List.cons_append, List.takeWhile_cons_of_pos (h c (by simp))]
    rw [ih (fun d hd => h d (by simp [hd]))]

theorem dropWhile_append_of_all {p : Char → Bool} {xs : List Char}
    (ys : List Char) (h : ∀ c ∈ xs, p c = true) :
    (xs ++ ys).dropWhile p = ys.dropWhile p := by
  induction xs with
  | nil => simp
  | cons c cs ih =>
    simp only [List.cons_append, List.dropWhile_cons_of_pos (h c (by simp))]
    exact ih (fun d hd => h d (by simp [hd]))

theorem isSchemeChar_ne_colon {c : Char} (h : isSchemeChar c = true) :
    c ≠ ':' := by
  rintro rfl
  simp [isSchemeChar] at h

theorem splitScheme_build (c : Char) (l rest : List Char)
    (hc : c.isAlpha = true) (hall : (c :: l).all isSchemeChar = true) :
    splitScheme ((c :: l) ++ ':' :: rest) = (lowerChars (c :: l), rest) := by
  have hnocolon : ∀ d ∈ (c :: l), decide (d = ':') = false := fun d hd =>
    decide_eq_false (isSchemeChar_ne_colon (List.all_eq_true.mp hall d hd))
  have hbreak : breakAtFirst (fun d => d = ':') (c :: (l ++ ':' :: rest)) =
      some (c :: l, rest) := by
    have h0 := breakAtFirst_found (p := fun d => d = ':')
      (c :: l) ':' rest hnocolon (by simp)
    simpa using h0
  simp [splitScheme, hbreak, hc, hall]

theorem splitNetloc_build (host tail : List Char)
    (hhost : ∀ c ∈ host, isNetlocDelim c = false)
    (htail : tail = [] ∨ ∃ d t, tail = d :: t ∧ isNetlocDelim d = true) :
    splitNetloc ('/' :: '/' :: (host ++ tail)) = (host, tail) := by
  have hall : ∀ c ∈ host, (fun c => ! isNetlocDelim c) c = true := by
    intro c hc
    simp [hhost c hc]
  have htake : (host ++ tail).takeWhile (fun c => ! isNetlocDelim c) = host := by
    rw [takeWhile_append_of_all tail hall]
    rcases htail with rfl | ⟨d, t, rfl, hd⟩
    · simp
    · rw [List.takeWhile_cons_of_neg (by simp [hd]), List.append_nil]
  have hdrop : (host ++ tail).dropWhile (fun c => ! isNetlocDelim c) = tail := by
    rw [dropWhile_append_of_all tail hall]
    rcases htail with rfl | ⟨d, t, rfl, hd⟩
    · simp
    · rw [List.dropWhile_cons_of_neg (by simp [hd])]
  simp [splitNetloc, List.take, List.drop, htake, hdrop]

theorem splitFragment_none (l : List Char)
    (h : ∀ c ∈ l, decide (c = '#') = false) : splitFragment l = (l, []) := by
  simp [splitFragment, breakAtFirst_eq_none h]

theorem splitFragment_found (xs ys : List Char)
    (h : ∀ c ∈ xs, decide (c = '#') = false) :
    splitFragment (xs ++ '#' :: ys) = (xs, ys) := by
  simp [splitFragment, breakAtFirst_found xs '#' ys h (by simp)]

theorem splitQuery_none (l : List Char)
    (h : ∀ c ∈ l, decide (c = '?') = false) : splitQuery l = (l, []) := by
  simp [splitQuery, breakAtFirst_eq_none h]

theorem splitQuery_found (xs ys : List Char)
    (h : ∀ c ∈ xs, decide (c = '?') = false) :
    splitQuery (xs ++ '?' :: ys) = (xs, ys) := by
  simp [splitQuery, breakAtFirst_found xs '?' ys h (by simp)]

/-- urlsplit inverts buildUrl on well-formed components, lower-casing the
scheme and changing nothing else: the host keeps its letter case. -/
theorem urlsplit_buildUrl (u : UrlParts) (h : u.wf = true) :
    urlsplit (buildUrl u) =
      ⟨lowerChars u.scheme, u.host, u.path, u.query, u.fragment⟩ := by
  obtain ⟨scheme, host, path, query, fragment⟩ := u
  simp only [UrlParts.wf, Bool.and_eq_true] at h
  obtain ⟨⟨⟨⟨⟨⟨⟨hs1, hs2⟩, hs3⟩, hh1⟩, hh2⟩, hp⟩, hp2⟩, hq⟩ := h
  cases scheme with
  | nil => simp at hs1
  | cons c l =>
  have hc : c.isAlpha = true := by simpa using hs2
  have hp' : path = [] ∨ path.take 1 = ['/'] := by
    rcases (Bool.or_eq_true _ _).mp hp with h1 | h1
    · exact Or.inl (by simpa using h1)
    · exact Or.inr (by simpa using h1)
  have hostnd : ∀ d ∈ host, isNetlocDelim d = false := by
    intro d hd
    have := List.all_eq_true.mp hh2 d hd
    simpa using this
  have hpathq : ∀ d ∈ path, decide (d = '?') = false := by
    intro d hd
    have := List.all_eq_true.mp hp2 d hd
    simp only [Bool.and_eq_true, decide_eq_true_eq] at this
    simp [this.1]
  have hpathh : ∀ d ∈ path, decide (d = '#') = false := by
    intro d hd
    have := List.all_eq_true.mp hp2 d hd
    simp only [Bool.and_eq_true, decide_eq_true_eq] at this
    simp [this.2]
  have hqh : ∀ d ∈ query, decide (d = '#') = false := by
    intro d hd
    have := List.all_eq_true.mp hq d hd
    simp only [decide_eq_true_eq] at this
    simp [this]
  -- names for the optional parts and the tail after "//"
  have hsplit1 : splitScheme (buildUrl ⟨c :: l, host, path, query, fragment⟩) =
      (lowerChars (c :: l),
        '/' :: '/' :: (host ++ (path
          ++ ((if query.isEmpty then [] else '?' :: query)
            ++ (if fragment.isEmpty then [] else '#' :: fragment))))) :=
    splitScheme_build c l _ hc hs3
  have htailshape : (path
      ++ ((if query.isEmpty then [] else '?' :: query)
        ++ (if fragment.isEmpty then [] else '#' :: fragment))) = [] ∨
      ∃ d t, (path
      ++ ((if query.isEmpty then [] else '?' :: query)
        ++ (if fragment.isEmpty then [] else '#' :: fragment))) = d :: t ∧
        isNetlocDelim d = true := by
    rcases hp' with rfl | h1
    · by_cases hqe : query.isEmpty
      · by_cases hfe : fragment.isEmpty
        · left
          simp [hqe, hfe]
        · right
          exact ⟨'#', fragment, by simp [hqe, hfe], by simp [isNetlocDelim]⟩
      · right
        exact ⟨'?', query
          ++ (if fragment.isEmpty then [] else '#' :: fragment), by simp [hqe], by
            simp [isNetlocDelim]⟩
    · cases path with
      | nil => simp at h1
      | cons a t =>
        have ha : a = '/' := by simpa [List.take] using h1
        subst ha
        right
        exact ⟨'/', t ++ ((if query.isEmpty then [] else '?' :: query)
          ++ (if fragment.isEmpty then [] else '#' :: fragment)),
          by simp, by simp [isNetlocDelim]⟩
  have hsplit2 : splitNetloc ('/' :: '/' :: (host ++ (path
      ++ ((if query.isEmpty then [] else '?' :: query)
        ++ (if fragment.isEmpty then [] else '#' :: fragment))))) =
      (host, path
        ++ ((if query.isEmpty then [] else '?' :: query)
          ++ (if fragment.isEmpty then [] else '#' :: fragment))) :=
    splitNetloc_build host _ hostnd htailshape
  have hnohash : ∀ d ∈ path ++ (if query.isEmpty then [] else '?' :: query),
      decide (d = '#') = false := by
    intro d hd
    rcases List.mem_append.mp hd with hd1 | hd1
    · exact hpathh d hd1
    · by_cases hqe : query.isEmpty
      · simp [hqe] at hd1
      · simp only [hqe, Bool.false_eq_true, if_false, List.mem_cons] at hd1
        rcases hd1 with rfl | hd1
        · simp
        · exact hqh d hd1
  have hsplit3 : splitFragment (path
      ++ ((if query.isEmpty then [] else '?' :: query)
        ++ (if fragment.isEmpty then [] else '#' :: fragment))) =
      (path ++ (if query.isEmpty then [] else '?' :: query), fragment) := by
    by_cases hfe : fragment.isEmpty
    · have hfnil : fragment = [] := by simpa [List.isEmpty_iff] using hfe
      subst hfnil
      simp only [List.isEmpty_nil, if_true, List.append_nil]
      exact splitFragment_none _ hnohash
    · have : (if fragment.isEmpty then ([] : List Char) else '#' :: fragment) =
        '#' :: fragment := by simp [hfe]
      rw [this, ← List.append_assoc]
      exact splitFragment_found _ _ hnohash
  have hsplit4 : splitQuery (path ++ (if query.isEmpty then [] else '?' :: query)) =
      (path, query) := by
    by_cases hqe : query.isEmpty
    · have hqnil : query = [] := by simpa [List.isEmpty_iff] using hqe
      subst hqnil
      simp only [List.isEmpty_nil, if_true, List.append_nil]
      exact splitQuery_none _ hpathq
    · have : (if query.isEmpty then ([] : List Char) else '?' :: query) =
        '?' :: query := by simp [hqe]
      rw [this]
      exact splitQuery_found _ _ hpathq
  simp only [urlsplit, hsplit1, hsplit2, hsplit3, hsplit4]

/-- urlunsplit on a nonempty scheme, a nonempty netloc, a path that is empty
or starts with "/", a query and an empty fragment reproduces the component
serialization. -/
theorem urlunsplit_parts (scheme netloc path query : List Char)
    (hs : scheme ≠ []) (hn : netloc ≠ [])
    (hp : path = [] ∨ path.take 1 = ['/']) :
    urlunsplit scheme netloc path query [] =
      scheme ++ ':' :: '/' :: '/' ::
        (netloc ++ (path ++ (if query.isEmpty then [] else '?' :: query))) := by
  simp only [urlunsplit]
  rw [if_neg (by simp)]
  have hc1 : (netloc ≠ [] ∨ (path ≠ [] ∧ path.take 2 = ['/', '/'])) := Or.inl hn
  rw [if_pos hc1]
  have hc2 : ¬ (path ≠ [] ∧ path.take 1 ≠ ['/']) := by
    rintro ⟨hne, hh⟩
    rcases hp with rfl | h1
    · exact hne rfl
    · exact hh h1
  rw [if_neg hc2, if_pos hs]
  by_cases hqe : query = []
  · subst hqe
    rw [if_neg (by simp)]
    simp
  · rw [if_pos hqe]
    have hq2 : query.isEmpty = false := by simpa [List.isEmpty_iff] using hqe
    simp [hq2, List.append_assoc]

theorem rstripSlash_decomp (l : List Char) :
    ∃ t, l = rstripSlash l ++ t ∧ ∀ c ∈ t, c = '/' := by
  refine ⟨(l.reverse.takeWhile (fun c => c = '/')).reverse, ?_, ?_⟩
  · simp only [rstripSlash]
    conv_lhs => rw [← List.reverse_reverse l,
      ← List.takeWhile_append_dropWhile (p := fun c => decide (c = '/')) (l := l.reverse),
      List.reverse_append]
  · intro c hc
    rw [List.mem_reverse] at hc
    have h2 := List.mem_takeWhile_imp hc
    simpa using h2

theorem rstripSlash_take_one (path : List Char) (h : path.take 1 = ['/']) :
    rstripSlash path = [] ∨ (rstripSlash path).take 1 = ['/'] := by
  obtain ⟨t, ht, _⟩ := rstripSlash_decomp path
  cases hr : rstripSlash path with
  | nil => exact Or.inl rfl
  | cons a s =>
    right
    rw [hr] at ht
    rw [ht] at h
    simpa [List.take] using h

theorem rstripSlash_append_slash (l : List Char) :
    rstripSlash (l ++ ['/']) = rstripSlash l := by
  simp only [rstripSlash, List.reverse_append]
  simp [List.dropWhile]

/-- The effect of normalize_url on a well-formed component URL: the scheme is
lower-cased, the host is kept verbatim (case included), trailing slashes are
stripped from the path, the query is kept verbatim, and the fragment is
dropped. -/
theorem normalize_url_buildUrl (u : UrlParts) (h : u.wf = true) :
    normalize_url ⟨buildUrl u⟩ =
      ⟨buildUrl ⟨lowerChars u.scheme, u.host, rstripSlash u.path, u.query, []⟩⟩ := by
  have hw : u.wf = true := h
  simp only [UrlParts.wf, Bool.and_eq_true] at hw
  obtain ⟨⟨⟨⟨⟨⟨⟨hs1, hs2⟩, hs3⟩, hh1⟩, hh2⟩, hp⟩, hp2⟩, hq⟩ := hw
  have hsne : u.scheme ≠ [] := by
    cases hx : u.scheme with
    | nil => rw [hx] at hs1; simp at hs1
    | cons a t => simp
  have hlne : lowerChars u.scheme ≠ [] := by
    cases hx : u.scheme with
    | nil => exact absurd hx hsne
    | cons a t => simp [lowerChars, hx]
  have hhne : u.host ≠ [] := by
    cases hx : u.host with
    | nil => rw [hx] at hh1; simp at hh1
    | cons a t => simp
  have hpshape : rstripSlash u.path = [] ∨ (rstripSlash u.path).take 1 = ['/'] := by
    rcases (Bool.or_eq_true _ _).mp hp with h1 | h1
    · left
      have : u.path = [] := by simpa [List.isEmpty_iff] using h1
      rw [this]
      rfl
    · exact rstripSlash_take_one _ (by simpa using h1)
  have hsplit : urlsplit (buildUrl u) =
      ⟨lowerChars u.scheme, u.host, u.path, u.query, u.fragment⟩ :=
    urlsplit_buildUrl u h
  show (⟨urlunsplit (urlsplit (String.mk (buildUrl u)).data).scheme
      (urlsplit (String.mk (buildUrl u)).data).netloc
      (rstripSlash (urlsplit (String.mk (buildUrl u)).data).path)
      (urlsplit (String.mk (buildUrl u)).data).query []⟩ : String) = _
  have hdata : (String.mk (buildUrl u)).data = buildUrl u := rfl
  rw [hdata, hsplit]
  rw [urlunsplit_parts _ _ _ _ hlne hhne hpshape]
  simp [buildUrl]

/-- C4: the claim states that normalize_url lower-cases the scheme and the
host, so two URLs whose hosts differ only in letter case canonicalize to the
same key.  Counterexample: urlsplit lower-cases only the scheme and returns
the netloc verbatim, and normalize_url reassembles that verbatim netloc, so
the host keeps its case and the two keys differ. -/
theorem c4_counterexample_host_case_kept :
    normalize_url "http://Example.com/a" = "http://Example.com/a" ∧
    normalize_url "http://Example.com/a" ≠ normalize_url "http://example.com/a" := by
  constructor
  · decide
  · decide

/-- C4 (amended): for every well-formed component URL, normalize_url
lower-cases the scheme, keeps the host verbatim including its letter case,
strips the trailing slashes from the path, drops the fragment, and retains
the query verbatim; consequently two otherwise identical URLs whose hosts
differ (in particular, differ only in letter case) canonicalize to different
keys. -/
theorem c4_amended_canonicalization :
    (∀ u : UrlParts, u.wf = true →
      normalize_url ⟨buildUrl u⟩ =
        ⟨buildUrl ⟨lowerChars u.scheme, u.host, rstripSlash u.path, u.query, []⟩⟩) ∧
    (∀ u1 u2 : UrlParts, u1.wf = true → u2.wf = true →
      lowerChars u1.scheme = lowerChars u2.scheme → u1.path = u2.path →
      u1.query = u2.query → u1.host ≠ u2.host →
      normalize_url ⟨buildUrl u1⟩ ≠ normalize_url ⟨buildUrl u2⟩) ∧
    normalize_url "http://Example.com/a" ≠ normalize_url "http://example.com/a" := by
  refine ⟨fun u hu => normalize_url_buildUrl u hu, ?_, by decide⟩
  intro u1 u2 h1 h2 hsch hpath hquery hhost heq
  rw [normalize_url_buildUrl u1 h1, normalize_url_buildUrl u2 h2] at heq
  have hlist : buildUrl ⟨lowerChars u1.scheme, u1.host, rstripSlash u1.path,
      u1.query, []⟩ =
      buildUrl ⟨lowerChars u2.scheme, u2.host, rstripSlash u2.path,
      u2.query, []⟩ := congrArg String.data heq
  simp only [buildUrl, hsch, hpath, hquery] at hlist
  have htail := List.append_inj_right hlist rfl
  simp only [List.cons.injEq, true_and] at htail
  exact hhost (List.append_inj_left' htail rfl)

/-- Witness for the amended C4 theorem at a concrete component URL with an
upper-case scheme, a mixed-case host, a trailing slash, a query and a
fragment. -/
theorem c4_amended_canonicalization_witness :
    (UrlParts.mk ['H', 'T', 'T', 'P'] ['E', 'x', '.', 'c'] ['/', 'a', '/']
      ['q', '=', '1'] ['f']).wf = true ∧
    normalize_url ⟨buildUrl ⟨['H', 'T', 'T', 'P'], ['E', 'x', '.', 'c'],
        ['/', 'a', '/'], ['q', '=', '1'], ['f']⟩⟩ =
      ⟨buildUrl ⟨lowerChars ['H', 'T', 'T', 'P'], ['E', 'x', '.', 'c'],
        rstripSlash ['/', 'a', '/'], ['q', '=', '1'], []⟩⟩ :=
  ⟨by decide, c4_amended_canonicalization.1 _ (by decide)⟩

/-! ### Deduplicating collection loop, from scripts/collect-materials.py -/

/-- One raw search result as collect_materials reads it: the dictionary
fields it accesses, each possibly missing. -/
structure RawResult where
  title : Option String := none
  url : Option String := none
  description : Option String := none
  snippet : Option String := none
deriving Repr, DecidableEq

/-- One admitted entry of the materials list: title, url, summary. -/
structure MaterialEntry where
  title : String
  url : String
  summary : String
deriving Repr, DecidableEq

/-- Python "a or b" for an optional string a: b when a is None or empty
(both are falsy), a otherwise. -/
def pyOrStr (a : Option String) (b : String) : String :=
  match a with
  | some s => if s = "" then b else s
  | none => b

/-- The loop state of collect_materials: the entries list and the seen_urls
set.  The set is carried as a list of keys; only membership and insertion
are used, matching Python set semantics for this code. -/
structure DedupState where
  entries : List MaterialEntry
  seen : List String
deriving Repr, DecidableEq

/-- Python str.strip with no argument, on the ASCII whitespace these fields
carry: drop leading and trailing whitespace characters. -/
def pyStrip (s : String) : String :=
  ⟨((s.data.dropWhile Char.isWhitespace).reverse.dropWhile
      Char.isWhitespace).reverse⟩

/-- The body of the inner result loop of collect_materials
(collect-materials.py lines 162-174): strip the title and url, skip the
result when either is empty, skip it when its normalized URL has been seen,
and otherwise append the entry and record the normalized URL as seen. -/
def processResult (s : DedupState) (result : RawResult) : DedupState :=
  let title := pyStrip (pyOrStr result.title "")
  let url := pyStrip (pyOrStr result.url "")
  if title = "" || url = "" then s
  else
    let normalized := normalize_url url
    if s.seen.contains normalized then s
    else
      let summary := pyStrip (pyOrStr result.description (pyOrStr result.snippet ""))
      ⟨s.entries ++ [⟨title, url, summary⟩], s.seen ++ [normalized]⟩

/-- collect_materials (lines 154-180) restricted to its deduplication logic:
the per-keyword fetches concatenate into one result stream, and entries and
seen_urls persist across keywords, so the admitted entries are a fold of
processResult over the concatenated stream starting from the empty state. -/
def collect_materials (results : List RawResult) : List MaterialEntry :=
  (results.foldl processResult ⟨[], []⟩).entries

/-- Two URLs that differ only by one trailing slash on the path share their
canonical key. -/
theorem normalize_trailing_slash (u : UrlParts) (h : u.wf = true) :
    normalize_url ⟨buildUrl { u with path := u.path ++ ['/'] }⟩ =
      normalize_url ⟨buildUrl u⟩ := by
  have hw : ({ u with path := u.path ++ ['/'] } : UrlParts).wf = true := by
    obtain ⟨scheme, host, path, query, fragment⟩ := u
    simp only [UrlParts.wf, Bool.and_eq_true] at h ⊢
    obtain ⟨⟨⟨⟨⟨⟨⟨hs1, hs2⟩, hs3⟩, hh1⟩, hh2⟩, hp⟩, hp2⟩, hq⟩ := h
    refine ⟨⟨⟨⟨⟨⟨⟨hs1, hs2⟩, hs3⟩, hh1⟩, hh2⟩, ?_⟩, ?_⟩, hq⟩
    · simp only [Bool.or_eq_true]
      right
      rcases (Bool.or_eq_true _ _).mp hp with h1 | h1
      · have : path = [] := by simpa [List.isEmpty_iff] using h1
        subst this
        simp
      · cases path with
        | nil => simp
        | cons a t =>
          have ha : a = '/' := by simpa [List.take] using h1
          subst ha
          simp
    · rw [List.all_append]
      simp only [Bool.and_eq_true]
      exact ⟨hp2, by decide⟩
  rw [normalize_url_buildUrl _ hw, normalize_url_buildUrl u h]
  have : rstripSlash (u.path ++ ['/']) = rstripSlash u.path :=
    rstripSlash_append_slash u.path
  simp [this]

/-- Two URLs that differ only in their fragment share their canonical key. -/
theorem normalize_fragment_dropped (u : UrlParts) (f1 f2 : List Char)
    (h : u.wf = true) :
    normalize_url ⟨buildUrl { u with fragment := f1 }⟩ =
      normalize_url ⟨buildUrl { u with fragment := f2 }⟩ := by
  have h1 : ({ u with fragment := f1 } : UrlParts).wf = true := by
    obtain ⟨scheme, host, path, query, fragment⟩ := u
    exact h
  have h2 : ({ u with fragment := f2 } : UrlParts).wf = true := by
    obtain ⟨scheme, host, path, query, fragment⟩ := u
    exact h
  rw [normalize_url_buildUrl _ h1, normalize_url_buildUrl _ h2]

/-- Two URLs that differ only in their query have different canonical
keys. -/
theorem normalize_query_kept (u1 u2 : UrlParts)
    (h1 : u1.wf = true) (h2 : u2.wf = true)
    (hsch : lowerChars u1.scheme = lowerChars u2.scheme)
    (hhost : u1.host = u2.host) (hpath : u1.path = u2.path)
    (hq : u1.query ≠ u2.query) :
    normalize_url ⟨buildUrl u1⟩ ≠ normalize_url ⟨buildUrl u2⟩ := by
  intro heq
  rw [normalize_url_buildUrl u1 h1, normalize_url_buildUrl u2 h2] at heq
  have hlist : buildUrl ⟨lowerChars u1.scheme, u1.host, rstripSlash u1.path,
      u1.query, []⟩ =
      buildUrl ⟨lowerChars u2.scheme, u2.host, rstripSlash u2.path,
      u2.query, []⟩ := congrArg String.data heq
  simp only [buildUrl, hsch, hhost, hpath] at hlist
  have htail := List.append_inj_right hlist rfl
  simp only [List.cons.injEq, true_and] at htail
  have htail2 := List.append_inj_right htail rfl
  have htail3 := List.append_inj_right htail2 rfl
  simp only [List.isEmpty_nil, if_true, List.append_nil] at htail3
  apply hq
  by_cases hq1 : u1.query.isEmpty <;> by_cases hq2 : u2.query.isEmpty
  · have e1 : u1.query = [] := by simpa [List.isEmpty_iff] using hq1
    have e2 : u2.query = [] := by simpa [List.isEmpty_iff] using hq2
    rw [e1, e2]
  · rw [if_pos hq1, if_neg (by simp [hq2])] at htail3
    simp at htail3
  · rw [if_neg (by simp [hq1]), if_pos hq2] at htail3
    simp at htail3
  · rw [if_neg (by simp [hq1]), if_neg (by simp [hq2])] at htail3
    exact (List.cons.injEq _ _ _ _).mp htail3 |>.2

/-- A raw result with a plain URL. -/
def rawA : RawResult := { title := some "A", url := some "http://a.com/x" }

/-- The same URL with a trailing slash and a richer summary. -/
def rawSlash : RawResult :=
  { title := some "B", url := some "http://a.com/x/", description := some "richer summary" }

/-- The same URL with a fragment. -/
def rawFrag : RawResult := { title := some "C", url := some "http://a.com/x#sec" }

/-- The same URL with a query string. -/
def rawQuery : RawResult := { title := some "D", url := some "http://a.com/x?q=1" }

/-- C6: URLs differing only by a trailing path slash or only by a fragment
share one canonical key while URLs differing only by query string have
different keys; in the collection loop, the second result carrying an
already-seen key is discarded no matter how rich its summary is, while a
result with a fresh key is appended after the first; and on concrete
two-element streams collect_materials admits one entry for the
slash and fragment variants and two entries for the query variant. -/
theorem c6_dedup_first_seen_wins :
    (∀ u : UrlParts, u.wf = true →
      normalize_url ⟨buildUrl { u with path := u.path ++ ['/'] }⟩ =
        normalize_url ⟨buildUrl u⟩) ∧
    (∀ (u : UrlParts) (f1 f2 : List Char), u.wf = true →
      normalize_url ⟨buildUrl { u with fragment := f1 }⟩ =
        normalize_url ⟨buildUrl { u with fragment := f2 }⟩) ∧
    (∀ u1 u2 : UrlParts, u1.wf = true → u2.wf = true →
      lowerChars u1.scheme = lowerChars u2.scheme → u1.host = u2.host →
      u1.path = u2.path → u1.query ≠ u2.query →
      normalize_url ⟨buildUrl u1⟩ ≠ normalize_url ⟨buildUrl u2⟩) ∧
    (∀ (s : DedupState) (r1 r2 : RawResult),
      pyStrip (pyOrStr r1.title "") ≠ "" → pyStrip (pyOrStr r1.url "") ≠ "" →
      s.seen.contains (normalize_url (pyStrip (pyOrStr r1.url ""))) = false →
      normalize_url (pyStrip (pyOrStr r2.url "")) =
        normalize_url (pyStrip (pyOrStr r1.url "")) →
      processResult (processResult s r1) r2 =
        ⟨s.entries ++ [⟨pyStrip (pyOrStr r1.title ""), pyStrip (pyOrStr r1.url ""),
          pyStrip (pyOrStr r1.description (pyOrStr r1.snippet ""))⟩],
         s.seen ++ [normalize_url (pyStrip (pyOrStr r1.url ""))]⟩) ∧
    (∀ (s : DedupState) (r1 r2 : RawResult),
      pyStrip (pyOrStr r1.title "") ≠ "" → pyStrip (pyOrStr r1.url "") ≠ "" →
      pyStrip (pyOrStr r2.title "") ≠ "" → pyStrip (pyOrStr r2.url "") ≠ "" →
      s.seen.contains (normalize_url (pyStrip (pyOrStr r1.url ""))) = false →
      s.seen.contains (normalize_url (pyStrip (pyOrStr r2.url ""))) = false →
      normalize_url (pyStrip (pyOrStr r2.url "")) ≠
        normalize_url (pyStrip (pyOrStr r1.url "")) →
      processResult (processResult s r1) r2 =
        ⟨s.entries ++ [⟨pyStrip (pyOrStr r1.title ""), pyStrip (pyOrStr r1.url ""),
            pyStrip (pyOrStr r1.description (pyOrStr r1.snippet ""))⟩,
          ⟨pyStrip (pyOrStr r2.title ""), pyStrip (pyOrStr r2.url ""),
            pyStrip (pyOrStr r2.description (pyOrStr r2.snippet ""))⟩],
         s.seen ++ [normalize_url (pyStrip (pyOrStr r1.url "")),
           normalize_url (pyStrip (pyOrStr r2.url ""))]⟩) ∧
    (collect_materials [rawA, rawSlash] = [⟨"A", "http://a.com/x", ""⟩] ∧
     collect_materials [rawA, rawFrag] = [⟨"A", "http://a.com/x", ""⟩] ∧
     collect_materials [rawA, rawQuery] =
       [⟨"A", "http://a.com/x", ""⟩, ⟨"D", "http://a.com/x?q=1", ""⟩]) := by
  refine ⟨normalize_trailing_slash, normalize_fragment_dropped,
    normalize_query_kept, ?_, ?_, by decide, by decide, by decide⟩
  · intro s r1 r2 ht1 hu1 hseen hk
    have hmem1 : ¬ normalize_url (pyStrip (pyOrStr r1.url "")) ∈ s.seen := by
      simpa using hseen
    have h1 : processResult s r1 =
        ⟨s.entries ++ [⟨pyStrip (pyOrStr r1.title ""), pyStrip (pyOrStr r1.url ""),
          pyStrip (pyOrStr r1.description (pyOrStr r1.snippet ""))⟩],
         s.seen ++ [normalize_url (pyStrip (pyOrStr r1.url ""))]⟩ := by
      simp [processResult, ht1, hu1, hmem1]
    rw [h1]
    by_cases ht2 : pyStrip (pyOrStr r2.title "") = ""
    · simp [processResult, ht2]
    · by_cases hu2 : pyStrip (pyOrStr r2.url "") = ""
      · simp [processResult, ht2, hu2]
      · simp [processResult, ht2, hu2, hk]
  · intro s r1 r2 ht1 hu1 ht2 hu2 hseen1 hseen2 hk
    have hmem1 : ¬ normalize_url (pyStrip (pyOrStr r1.url "")) ∈ s.seen := by
      simpa using hseen1
    have hmem2 : ¬ normalize_url (pyStrip (pyOrStr r2.url "")) ∈ s.seen := by
      simpa using hseen2
    have h1 : processResult s r1 =
        ⟨s.entries ++ [⟨pyStrip (pyOrStr r1.title ""), pyStrip (pyOrStr r1.url ""),
          pyStrip (pyOrStr r1.description (pyOrStr r1.snippet ""))⟩],
         s.seen ++ [normalize_url (pyStrip (pyOrStr r1.url ""))]⟩ := by
      simp [processResult, ht1, hu1, hmem1]
    rw [h1]
    simp [processResult, ht2, hu2, hk, hmem2]

/-- A concrete well-formed component URL used by witnesses. -/
def uHttpAX : UrlParts :=
  ⟨['h', 't', 't', 'p'], ['a', '.', 'c'], ['/', 'x'], [], []⟩

/-- Witness for C6: the trailing-slash key equality at a concrete component
URL (discharging its well-formedness hypothesis), the duplicate-key branch
of the loop at the concrete pair rawA then rawSlash, and the fresh-key
branch at rawA then rawQuery, starting from the empty state. -/
theorem c6_dedup_first_seen_wins_witness :
    normalize_url ⟨buildUrl { uHttpAX with path := uHttpAX.path ++ ['/'] }⟩ =
      normalize_url ⟨buildUrl uHttpAX⟩ ∧
    processResult (processResult ⟨[], []⟩ rawA) rawSlash =
      ⟨[⟨"A", "http://a.com/x", ""⟩], ["http://a.com/x"]⟩ ∧
    processResult (processResult ⟨[], []⟩ rawA) rawQuery =
      ⟨[⟨"A", "http://a.com/x", ""⟩, ⟨"D", "http://a.com/x?q=1", ""⟩],
       ["http://a.com/x", "http://a.com/x?q=1"]⟩ :=
  ⟨c6_dedup_first_seen_wins.1 uHttpAX (by decide),
   (c6_dedup_first_seen_wins.2.2.2.1 ⟨[], []⟩ rawA rawSlash
      (by decide) (by decide) (by decide) (by decide)).trans (by decide),
   (c6_dedup_first_seen_wins.2.2.2.2.1 ⟨[], []⟩ rawA rawQuery
      (by decide) (by decide) (by decide) (by decide) (by decide) (by decide)
      (by decide)).trans (by decide)⟩

/-! ### Draft stage, from scripts/write-note.py -/

/-- A note as the authoring collaborator may return it: a dictionary whose
fields may each be missing. -/
structure AgentNote where
  title : Option String := none
  content : Option String := none
  sources : Option (List String) := none
  tag : Option String := none
deriving Repr, DecidableEq

/-- Python truthiness of an optional string: false for None and for the
empty string. -/
def truthyStr (o : Option String) : Bool :=
  match o with
  | some s => s ≠ ""
  | none => false

/-- Python string slicing prompt[:n]: the first n characters. -/
def pyTake (s : String) (n : Nat) : String :=
  ⟨s.data.take n⟩

/-- simulated_writer of write-note.py (lines 62-70): the deterministic
degraded writer. -/
def simulated_writer (prompt : String) : AgentNote :=
  { title := some ("觀察：" ++ pyTake prompt 60)
  , content := some ("我最近觀察到技術領域裡的一些趨勢，以下是整理與心得。\n\n（此為自動生成的示範內容，正式運作時會由 sessions_spawn 撰寫）\n")
  , sources := some []
  , tag := some "#tech-radar" }

/-- How the environment behaves for one spawn_sessions_agent call: the
importing sessions_spawn fails, or the module is available and the agent
call completes with a note within the deadline, or the fut.result call
raises concurrent.futures.TimeoutError. -/
inductive AgentCall where
  | importFails
  | completes (n : AgentNote)
  | timesOut
deriving Repr, DecidableEq

/-- The outcome of spawn_sessions_agent: a note, or the raised
TimeoutError. -/
inductive SpawnResult where
  | note (n : AgentNote)
  | timeoutError
deriving Repr, DecidableEq

/-- spawn_sessions_agent of write-note.py (lines 36-59): when the import of
sessions_spawn fails, fall back to simulated_writer; when the call completes
in time, return its note; when the deadline passes, raise TimeoutError. -/
def spawn_sessions_agent (call : AgentCall) (prompt : String) : SpawnResult :=
  match call with
  | .importFails => .note (simulated_writer prompt)
  | .completes n => .note n
  | .timesOut => .timeoutError

/-- Substring test on character lists, for the Python "needle in haystack"
expressions of choose_tag. -/
def leadsWith : List Char → List Char → Bool
  | [], _ => true
  | _ :: _, [] => false
  | p :: ps, c :: cs => p == c && leadsWith ps cs

/-- hasSub pat l is true when pat occurs contiguously inside l. -/
def hasSub (pat : List Char) : List Char → Bool
  | [] => leadsWith pat []
  | c :: cs => leadsWith pat (c :: cs) || hasSub pat cs

/-- Python str.lower on the ASCII strings choose_tag handles. -/
def lowerStr (s : String) : String :=
  ⟨lowerChars s.data⟩

/-- choose_tag of write-note.py (lines 73-82): heuristic tag choice on the
note content. -/
def choose_tag (candidate : String) : String :=
  let lower := lowerStr candidate
  if hasSub "trend".data lower.data || hasSub "trending".data lower.data
      || hasSub "trend".data candidate.data then "#tech-radar"
  else if hasSub "learn".data lower.data || hasSub "til".data lower.data
      || hasSub "learned".data lower.data then "#til"
  else if hasSub "bug".data lower.data || hasSub "error".data lower.data
      || hasSub "issue".data lower.data then "#bug-story"
  else "#opinion"

/-- The draft payload write_draft (lines 85-97) writes to
drafts/date.json. -/
structure DraftPayload where
  date : String
  tag : String
  title : String
  content : String
  sources : List String
deriving Repr, DecidableEq

/-- The outcome of the draft stage: sys.exit(1), or a written draft. -/
inductive DraftOutcome where
  | exitFail
  | wrote (p : DraftPayload)
deriving Repr, DecidableEq

/-- The slice of main of write-note.py after the materials are read
(lines 120-132): run spawn_sessions_agent (any exception, in particular the
TimeoutError, is caught by the except around it and exits 1), validate that
the note has a truthy title and content (else exit 1), and write the draft
payload, whose tag falls back to choose_tag on the content when the note
carries no truthy tag. -/
def draft_stage (call : AgentCall) (date prompt : String) : DraftOutcome :=
  match spawn_sessions_agent call prompt with
  | .timeoutError => .exitFail
  | .note note =>
    if ! truthyStr note.title || ! truthyStr note.content then .exitFail
    else .wrote
      { date := date
      , tag := match note.tag with
               | some t => if t = "" then choose_tag ((note.content).getD "") else t
               | none => choose_tag ((note.content).getD "")
      , title := (note.title).getD ""
      , content := (note.content).getD ""
      , sources := (note.sources).getD [] }

/-- C3: the claim states that when the authoring call exceeds its deadline,
the Draft stage falls back to the degraded writer and still writes a valid
draft.  Counterexample: on a timeout, spawn_sessions_agent raises
TimeoutError (write-note.py line 59), main catches it in the except around
the call and exits 1, so no draft is written: the degraded fallback runs
only when the import of sessions_spawn fails. -/
theorem c3_counterexample_timeout_fatal :
    spawn_sessions_agent .timesOut "p" = .timeoutError ∧
    draft_stage .timesOut "2024-03-05" "p" = .exitFail ∧
    ∀ payload : DraftPayload, draft_stage .timesOut "2024-03-05" "p" ≠ .wrote payload := by
  refine ⟨rfl, rfl, ?_⟩
  intro payload h
  exact DraftOutcome.noConfusion h

/-- C3 (amended): the degraded fallback runs on collaborator absence, not on
timeout: when the import of sessions_spawn fails, the Draft stage writes the
deterministic degraded draft, whose title and content are nonempty and whose
tag is the #tech-radar default, for every date and prompt; but when the
authoring call times out, the stage exits nonzero and writes nothing. -/
theorem c3_amended_fallback_on_absence (date prompt : String) :
    draft_stage .importFails date prompt =
      .wrote
        { date := date
        , tag := "#tech-radar"
        , title := "觀察：" ++ pyTake prompt 60
        , content := "我最近觀察到技術領域裡的一些趨勢，以下是整理與心得。\n\n（此為自動生成的示範內容，正式運作時會由 sessions_spawn 撰寫）\n"
        , sources := [] } ∧
    ("觀察：" ++ pyTake prompt 60) ≠ "" ∧
    draft_stage .timesOut date prompt = .exitFail := by
  have htitle : ("觀察：" ++ pyTake prompt 60) ≠ "" := by
    intro h
    have h2 : ("觀察：" ++ pyTake prompt 60).data = "".data := congrArg String.data h
    have h3 : ("觀察：" ++ pyTake prompt 60).data =
        "觀察：".data ++ (pyTake prompt 60).data := rfl
    rw [h3] at h2
    simp at h2
  refine ⟨?_, htitle, rfl⟩
  simp only [draft_stage, spawn_sessions_agent, simulated_writer, truthyStr]
  rw [if_neg (by simp [htitle])]
  simp

/-- Witness for the amended C3 theorem at a concrete date and prompt. -/
theorem c3_amended_fallback_on_absence_witness :
    draft_stage .importFails "2024-03-05" "AI agents - http://a.c" =
      .wrote
        { date := "2024-03-05"
        , tag := "#tech-radar"
        , title := "觀察：" ++ pyTake "AI agents - http://a.c" 60
        , content := "我最近觀察到技術領域裡的一些趨勢，以下是整理與心得。\n\n（此為自動生成的示範內容，正式運作時會由 sessions_spawn 撰寫）\n"
        , sources := [] } ∧
    ("觀察：" ++ pyTake "AI agents - http://a.c" 60) ≠ "" ∧
    draft_stage .timesOut "2024-03-05" "AI agents - http://a.c" = .exitFail :=
  c3_amended_fallback_on_absence "2024-03-05" "AI agents - http://a.c"

/-! ### Artifact writes as file-system operation traces

The claim about atomic writes concerns which file-system operations the
writers perform, so write_materials (collect-materials.py lines 183-189) and
write_json (publish.py lines 55-57) are embedded as the sequence of
file-system operations they execute.  JSON serialization (json.dump and
json.dumps) is passed in as a function parameter: the claim does not depend
on the serialized bytes. -/

/-- A file-system operation: create a directory tree (os.makedirs with
exist_ok), open a path for writing (creating or truncating it), write
content to an open path, or rename one path onto another. -/
inductive FsOp where
  | mkdirAll (path : String)
  | openTrunc (path : String)
  | writeAll (path : String) (content : String)
  | rename (src dst : String)
deriving Repr, DecidableEq

/-- write_materials of collect-materials.py (lines 183-189) as its operation
trace: make the materials directory, open the output path directly and write
the JSON dump into it.  It returns the output path; the trace is what the
atomicity claim is about. -/
def write_materials (serialize : List MaterialEntry → String)
    (entries : List MaterialEntry) (date base : String) : List FsOp :=
  [ .mkdirAll (base ++ "/materials"),
    .openTrunc (base ++ "/materials/" ++ date ++ ".json"),
    .writeAll (base ++ "/materials/" ++ date ++ ".json") (serialize entries) ]

/-- write_json of publish.py (lines 55-57) as its operation trace:
Path.write_text opens the target path itself and writes the serialized
content plus a newline. -/
def write_json {α : Type} (serialize : α → String) (path : String) (v : α) :
    List FsOp :=
  [ .openTrunc path, .writeAll path (serialize v ++ "\n") ]

/-- The atomic-write discipline the spec claims for every artifact write:
some temporary path distinct from the destination is renamed onto the
destination, and the destination itself is never opened for writing. -/
def isAtomicWrite (trace : List FsOp) (dst : String) : Bool :=
  trace.any (fun op => match op with
    | .rename tmp d => d == dst && tmp != dst
    | _ => false) &&
  trace.all (fun op => match op with
    | .openTrunc p => p != dst
    | _ => true)

/-- C2: the claim states that every artifact write stages the content to a
temporary location and renames it into place.  Counterexample: the concrete
traces of write_materials and write_json contain no rename at all and open
the destination path itself for writing, so the atomic-write discipline does
not hold for either writer. -/
theorem c2_counterexample_no_rename :
    isAtomicWrite (write_materials (fun _ => "x") [] "2024-01-01" "base")
      ("base" ++ "/materials/" ++ "2024-01-01" ++ ".json") = false ∧
    FsOp.openTrunc ("base" ++ "/materials/" ++ "2024-01-01" ++ ".json") ∈
      write_materials (fun _ => "x") [] "2024-01-01" "base" ∧
    isAtomicWrite (write_json (fun _ : List String => "x") "state.json" [])
      "state.json" = false ∧
    FsOp.openTrunc "state.json" ∈
      write_json (fun _ : List String => "x") "state.json" [] := by
  refine ⟨by decide, by decide, by decide, by decide⟩

/-- C2 (amended): both writers write directly: write_materials makes the
materials directory, then opens the final output path and writes the JSON
dump into it, and write_json opens the final path and writes content plus a
newline; neither trace performs any rename, so neither write satisfies the
temp-then-rename discipline, for every input. -/
theorem c2_amended_direct_writes :
    (∀ (serialize : List MaterialEntry → String) (entries : List MaterialEntry)
        (date base : String),
      write_materials serialize entries date base =
        [ .mkdirAll (base ++ "/materials"),
          .openTrunc (base ++ "/materials/" ++ date ++ ".json"),
          .writeAll (base ++ "/materials/" ++ date ++ ".json") (serialize entries) ] ∧
      isAtomicWrite (write_materials serialize entries date base)
        (base ++ "/materials/" ++ date ++ ".json") = false) ∧
    (∀ (α : Type) (serialize : α → String) (path : String) (v : α),
      write_json serialize path v =
        [ .openTrunc path, .writeAll path (serialize v ++ "\n") ] ∧
      isAtomicWrite (write_json serialize path v) path = false) := by
  constructor
  · intro serialize entries date base
    exact ⟨rfl, by simp [isAtomicWrite, write_materials]⟩
  · intro α serialize path v
    exact ⟨rfl, by simp [isAtomicWrite, write_json]⟩

/-! ### Publish, from scripts/publish.py

publish.py manipulates parsed JSON (dicts, lists, strings, ints, bools,
null).  Floats do not occur in this pipeline's artifacts and are not
modelled.  Objects are association lists in insertion order with unique
keys, matching dict semantics for the operations the script performs. -/

/-- A JSON value as publish.py manipulates it. -/
inductive JVal where
  | jnull
  | jbool (b : Bool)
  | jint (n : Int)
  | jstr (s : String)
  | jarr (items : List JVal)
  | jobj (fields : List (String × JVal))

mutual

/-- Python == on the JSON values this script compares: True == 1 holds as in
Python; dicts are compared field-by-field in order (Python dict equality
ignores order, but the only values this program compares for membership are
tag strings, where the two agree). -/
def jvalBeq : JVal → JVal → Bool
  | .jnull, .jnull => true
  | .jbool a, .jbool b => a == b
  | .jbool a, .jint n => (if a then (1 : Int) else 0) == n
  | .jint n, .jbool a => n == (if a then (1 : Int) else 0)
  | .jint a, .jint b => a == b
  | .jstr a, .jstr b => a == b
  | .jarr a, .jarr b => jarrBeq a b
  | .jobj a, .jobj b => jobjBeq a b
  | _, _ => false

/-- Python == on JSON lists: pointwise. -/
def jarrBeq : List JVal → List JVal → Bool
  | [], [] => true
  | x :: xs, y :: ys => jvalBeq x y && jarrBeq xs ys
  | _, _ => false

/-- Python == on JSON objects, field-by-field. -/
def jobjBeq : List (String × JVal) → List (String × JVal) → Bool
  | [], [] => true
  | (k1, v1) :: xs, (k2, v2) :: ys => k1 == k2 && jvalBeq v1 v2 && jobjBeq xs ys
  | _, _ => false

end

/-- Python truthiness of a JSON value: None, False, 0, "", [] and empty
dicts are falsy. -/
def pyTruthy : JVal → Bool
  | .jnull => false
  | .jbool b => b
  | .jint n => n != 0
  | .jstr s => s != ""
  | .jarr xs => ! xs.isEmpty
  | .jobj fs => ! fs.isEmpty

/-- Python == between a JSON value and a str: true exactly for an equal
string. -/
def pyEqStr : JVal → String → Bool
  | .jstr t, s => t == s
  | _, _ => false

/-- The digits of a decimal numeral, or none when empty or not all
digits. -/
def digitsToNat : List Char → Option Nat
  | [] => none
  | cs => cs.foldl (fun acc c =>
      match acc with
      | none => none
      | some n => if c.isDigit then some (n * 10 + (c.toNat - '0'.toNat)) else none)
      (some 0)

/-- Python int(str): surrounding whitespace is ignored, an optional sign
precedes the digits (numeric underscores are not modelled; none occur in
the pipeline's artifacts).  none models the raised ValueError. -/
def pyParseInt (s : String) : Option Int :=
  let cs := ((s.data.dropWhile Char.isWhitespace).reverse.dropWhile
      Char.isWhitespace).reverse
  match cs with
  | '+' :: rest => (digitsToNat rest).map (fun n => (n : Int))
  | '-' :: rest => (digitsToNat rest).map (fun n => -(n : Int))
  | rest => (digitsToNat rest).map (fun n => (n : Int))

/-- Python int(x) on a JSON value: ints unchanged, bools as 0 and 1, strings
parsed; None, lists and dicts raise (none). -/
def pyInt : JVal → Option Int
  | .jint n => some n
  | .jbool b => some (if b then 1 else 0)
  | .jstr s => pyParseInt s
  | _ => none

/-- Python str(x) on the scalar JSON values: containers would repr
themselves, but no container ever reaches str() in this pipeline (tags come
from drafts written by write_draft, whose tag field is a string), so they
are mapped to a fixed marker. -/
def pyStr : JVal → String
  | .jstr s => s
  | .jint n => toString n
  | .jbool true => "True"
  | .jbool false => "False"
  | .jnull => "None"
  | .jarr _ => "<list repr>"
  | .jobj _ => "<dict repr>"

/-- Python dict.get on an object in association-list form. -/
def jget (fields : List (String × JVal)) (key : String) : Option JVal :=
  (fields.find? (fun kv => kv.1 == key)).map (fun kv => kv.2)

/-- Python dict assignment d[key] = v: replace in place when the key exists
(dicts keep insertion order on overwrite), append otherwise.  Keys are
unique in every object this script builds. -/
def jset (fields : List (String × JVal)) (key : String) (v : JVal) :
    List (String × JVal) :=
  if fields.any (fun kv => kv.1 == key) then
    fields.map (fun kv => if kv.1 == key then (key, v) else kv)
  else fields ++ [(key, v)]

/-- Python note.get(k) for the note dict: the value, or None. -/
def noteGet (v : JVal) (k : String) : JVal :=
  match v with
  | .jobj fields => (jget fields k).getD .jnull
  | _ => .jnull

theorem jget_map_subst (k1 k2 : String) (v : JVal) (hne : k2 ≠ k1)
    (f : List (String × JVal)) :
    jget (f.map (fun kv => if kv.1 == k1 then (k1, v) else kv)) k2 =
      jget f k2 := by
  induction f with
  | nil => rfl
  | cons kv rest ih =>
    by_cases hk : kv.1 == k1
    · have hkv1 : kv.1 = k1 := by simpa using hk
      have h1 : (k1 == k2) = false := by
        simp only [beq_eq_false_iff_ne, ne_eq]
        intro hc
        exact hne hc.symm
      have h2 : (kv.1 == k2) = false := by rw [hkv1]; exact h1
      simp only [List.map_cons, if_pos hk, jget, List.find?, h1, h2]
      exact ih
    · by_cases hk2 : kv.1 == k2
      · simp [jget, List.find?, hk, hk2]
      · simp only [List.map_cons, if_neg hk, jget, List.find?,
          Bool.not_eq_true] at ih ⊢
        simp only [hk2]
        exact ih

theorem jget_append_single_ne (k1 k2 : String) (v : JVal) (hne : k2 ≠ k1)
    (f : List (String × JVal)) :
    jget (f ++ [(k1, v)]) k2 = jget f k2 := by
  induction f with
  | nil =>
    have h1 : (k1 == k2) = false := by
      simp only [beq_eq_false_iff_ne, ne_eq]
      intro hc
      exact hne hc.symm
    simp [jget, List.find?, h1]
  | cons kv rest ih =>
    by_cases hk2 : kv.1 == k2
    · simp [jget, List.find?, hk2]
    · simp only [jget, List.cons_append, List.find?, hk2] at ih ⊢
      exact ih

theorem jget_jset_ne (f : List (String × JVal)) (k1 k2 : String) (v : JVal)
    (hne : k2 ≠ k1) : jget (jset f k1 v) k2 = jget f k2 := by
  rw [jset]
  by_cases h : f.any (fun kv => kv.1 == k1)
  · rw [if_pos h]
    exact jget_map_subst k1 k2 v hne f
  · rw [if_neg h]
    exact jget_append_single_ne k1 k2 v hne f

theorem jget_map_subst_self (k1 : String) (v : JVal)
    (f : List (String × JVal)) (h : f.any (fun kv => kv.1 == k1) = true) :
    jget (f.map (fun kv => if kv.1 == k1 then (k1, v) else kv)) k1 = some v := by
  induction f with
  | nil => simp at h
  | cons kv rest ih =>
    by_cases hk : kv.1 == k1
    · simp [jget, List.find?, hk]
    · have hrest : rest.any (fun kv => kv.1 == k1) = true := by
        rcases List.any_eq_true.mp h with ⟨x, hx, hpx⟩
        rcases List.mem_cons.mp hx with rfl | hx2
        · exact absurd hpx (by simpa using hk)
        · exact List.any_eq_true.mpr ⟨x, hx2, hpx⟩
      have hk1 : (kv.1 == k1) = false := by simpa using hk
      have hres := ih hrest
      simpa [jget, List.find?, hk1] using hres

theorem jget_append_single_self (k1 : String) (v : JVal)
    (f : List (String × JVal)) (h : ∀ kv ∈ f, (kv.1 == k1) = false) :
    jget (f ++ [(k1, v)]) k1 = some v := by
  induction f with
  | nil => simp [jget, List.find?]
  | cons kv rest ih =>
    have hkv := h kv (by simp)
    simp only [List.cons_append, jget, List.find?, hkv]
    exact ih (fun x hx => h x (by simp [hx]))

theorem jget_jset_self (f : List (String × JVal)) (k : String) (v : JVal) :
    jget (jset f k v) k = some v := by
  rw [jset]
  by_cases h : f.any (fun kv => kv.1 == k)
  · rw [if_pos h]
    exact jget_map_subst_self k v f h
  · rw [if_neg h]
    refine jget_append_single_self k v f ?_
    intro kv hkv
    by_contra hc
    exact h (List.any_eq_true.mpr ⟨kv, hkv, by simpa using hc⟩)

/-- The field rewriting load_note (publish.py lines 60-72) applies to a
draft object: set the date field to the target date whenever the existing
date field is not equal (as Python ==) to the date string, and default the
image field to images/<date>.webp whenever it is falsy or missing. -/
def load_fields (fields : List (String × JVal)) (date : String) :
    List (String × JVal) :=
  let f1 :=
    if (match jget fields "date" with
        | some d => pyEqStr d date
        | none => false) then fields
    else jset fields "date" (.jstr date)
  if pyTruthy ((jget f1 "image").getD .jnull) then f1
  else jset f1 "image" (.jstr ("images/" ++ date ++ ".webp"))

/-- load_note of publish.py (lines 60-72): a missing draft file raises
FileNotFoundError, a non-object draft raises ValueError, and an object is
normalized by load_fields. -/
def load_note (draft : Option JVal) (date : String) : Except String JVal :=
  match draft with
  | none => .error "Draft not found"
  | some (.jobj fields) => .ok (.jobj (load_fields fields date))
  | some _ => .error "Draft JSON must be an object."

/-- update_notes of publish.py (lines 82-91): a missing notes.json acts as
the empty list, a non-list raises ValueError, and the note is inserted at
index 0.  The returned list is what write_json persists. -/
def update_notes (notesFile : Option JVal) (note : JVal) :
    Except String (List JVal) :=
  match notesFile with
  | none => .ok [note]
  | some (.jarr notes) => .ok (note :: notes)
  | some _ => .error "notes.json must be a list."

/-- update_state of publish.py (lines 94-130) on an already-validated state
object: set lastPublishDate; coerce totalNotes with int() falling back to 0
and increment it; accumulate the note tags into topics, skipping tags
already present under Python ==; and increment the monthlyStats bucket for
the first 7 characters of the date, restarting at 1 when the existing bucket
fails int().  The tags are the truthy elements of a list-valued tags field
passed through str(), else the single tag field when truthy. -/
def update_state (state : List (String × JVal)) (note : JVal) (date : String) :
    List (String × JVal) :=
  let s1 := jset state "lastPublishDate" (.jstr date)
  let total : Int :=
    match jget s1 "totalNotes" with
    | none => 0
    | some v => (pyInt v).getD 0
  let s2 := jset s1 "totalNotes" (.jint (total + 1))
  let topics0 : List JVal :=
    match jget s2 "topics" with
    | some (.jarr xs) => xs
    | _ => []
  let tags : List JVal :=
    match noteGet note "tags" with
    | .jarr xs => (xs.filter pyTruthy).map (fun t => .jstr (pyStr t))
    | _ =>
      if pyTruthy (noteGet note "tag") then [noteGet note "tag"] else []
  let topics1 := tags.foldl
    (fun acc tag => if acc.any (fun t => jvalBeq t tag) then acc else acc ++ [tag])
    topics0
  let s3 := jset s2 "topics" (.jarr topics1)
  let monthly0 : List (String × JVal) :=
    match jget s3 "monthlyStats" with
    | some (.jobj fs) => fs
    | _ => []
  let monthKey := pyTake date 7
  let newCount : Int :=
    match jget monthly0 monthKey with
    | none => 1
    | some v =>
      match pyInt v with
      | some n => n + 1
      | none => 1
  jset s3 "monthlyStats" (.jobj (jset monthly0 monthKey (.jint newCount)))

/-- The read-and-validate wrapper around update_state in publish.py: a
missing state.json acts as the empty object, a non-object raises
ValueError. -/
def update_state_run (stateFile : Option JVal) (note : JVal) (date : String) :
    Except String (List (String × JVal)) :=
  match stateFile with
  | none => .ok (update_state [] note date)
  | some (.jobj fs) => .ok (update_state fs note date)
  | some _ => .error "state.json must be an object."

/-- The inputs of one publish run: the draft file content, whether the
date's image exists, the notes.json and state.json contents, and whether
the git add-commit-push transaction succeeds. -/
structure PubEnv where
  draft : Option JVal
  imageExists : Bool
  notesFile : Option JVal
  stateFile : Option JVal
  gitSucceeds : Bool

/-- The observable outcome of one publish run: the process exit code, the
final contents of notes.json and state.json, and whether run_git was
invoked. -/
structure PubResult where
  exitCode : Nat
  notesFile : Option JVal
  stateFile : Option JVal
  gitRan : Bool

/-- main of publish.py (lines 165-188): load the draft, require the image,
prepend the note to notes.json and write it, update state.json and write
it, and only then check that the note has a truthy title; a missing or
falsy title raises after both files were already written.  run_git runs
only when the title check passes; its failure exits 1 but the file
mutations remain. -/
def publish_main (env : PubEnv) (date : String) : PubResult :=
  match load_note env.draft date with
  | .error _ => ⟨1, env.notesFile, env.stateFile, false⟩
  | .ok note =>
    if ! env.imageExists then ⟨1, env.notesFile, env.stateFile, false⟩
    else match update_notes env.notesFile note with
    | .error _ => ⟨1, env.notesFile, env.stateFile, false⟩
    | .ok notes1 =>
      match update_state_run env.stateFile note date with
      | .error _ => ⟨1, some (.jarr notes1), env.stateFile, false⟩
      | .ok state1 =>
        if ! pyTruthy (noteGet note "title") then
          ⟨1, some (.jarr notes1), some (.jobj state1), false⟩
        else if env.gitSucceeds then
          ⟨0, some (.jarr notes1), some (.jobj state1), true⟩
        else ⟨1, some (.jarr notes1), some (.jobj state1), true⟩

theorem pyEqStr_true {v : JVal} {s : String} (h : pyEqStr v s = true) :
    v = .jstr s := by
  cases v with
  | jstr t =>
    have ht : t = s := by simpa [pyEqStr] using h
    rw [ht]
  | jnull => simp [pyEqStr] at h
  | jbool b => simp [pyEqStr] at h
  | jint n => simp [pyEqStr] at h
  | jarr xs => simp [pyEqStr] at h
  | jobj fs => simp [pyEqStr] at h

theorem images_path_ne_empty (date : String) :
    ("images/" ++ date ++ ".webp") ≠ "" := by
  intro h
  have h2 : ("images/" ++ date ++ ".webp").data = "".data := congrArg String.data h
  have h3 : ("images/" ++ date ++ ".webp").data =
      ("images/".data ++ date.data) ++ ".webp".data := rfl
  rw [h3] at h2
  exact List.append_ne_nil_of_left_ne_nil
    (List.append_ne_nil_of_left_ne_nil (by decide) date.data) (".webp".data) h2

theorem jget_load_fields_other (fields : List (String × JVal)) (date k : String)
    (h1 : k ≠ "date") (h2 : k ≠ "image") :
    jget (load_fields fields date) k = jget fields k := by
  simp only [load_fields]
  by_cases hd : (match jget fields "date" with
      | some d => pyEqStr d date
      | none => false) = true
  · rw [if_pos hd]
    by_cases hi : pyTruthy ((jget fields "image").getD .jnull) = true
    · rw [if_pos hi]
    · rw [if_neg hi, jget_jset_ne _ _ _ _ h2]
  · rw [if_neg hd]
    by_cases hi : pyTruthy ((jget (jset fields "date" (.jstr date)) "image").getD .jnull) = true
    · rw [if_pos hi, jget_jset_ne _ _ _ _ h1]
    · rw [if_neg hi, jget_jset_ne _ _ _ _ h2, jget_jset_ne _ _ _ _ h1]

/-- A concrete published note with a single tag, as write_draft produces. -/
def taggedNote (t d : String) : JVal :=
  .jobj [("title", .jstr "T"), ("content", .jstr "C"), ("tag", .jstr t),
    ("date", .jstr d), ("image", .jstr ("images/" ++ d ++ ".webp"))]

/-- C7: update_state increments totalNotes by exactly one (an absent counter
counts as 0), appends a note tag to topics only when no equal element is
already present, and increments the monthlyStats bucket keyed by the first 7
characters of the date (an absent bucket restarts at 0); publishing three
notes tagged #til, #til, #opinion in one month from the empty state yields
totalNotes 3, topics exactly [#til, #opinion] and that month at 3. -/
theorem c7_state_aggregation :
    (∀ (state : List (String × JVal)) (note : JVal) (date : String) (n : Int),
      jget state "totalNotes" = some (.jint n) →
      jget (update_state state note date) "totalNotes" = some (.jint (n + 1))) ∧
    (∀ (state : List (String × JVal)) (note : JVal) (date : String),
      jget state "totalNotes" = none →
      jget (update_state state note date) "totalNotes" = some (.jint 1)) ∧
    (∀ (state : List (String × JVal)) (note : JVal) (date : String)
        (xs : List JVal) (t : String),
      jget state "topics" = some (.jarr xs) →
      noteGet note "tags" = .jnull → noteGet note "tag" = .jstr t → t ≠ "" →
      jget (update_state state note date) "topics" =
        some (.jarr (if xs.any (fun x => jvalBeq x (.jstr t)) then xs
          else xs ++ [.jstr t]))) ∧
    (∀ (state : List (String × JVal)) (note : JVal) (date : String)
        (ms : List (String × JVal)) (m : Int),
      jget state "monthlyStats" = some (.jobj ms) →
      jget ms (pyTake date 7) = some (.jint m) →
      jget (update_state state note date) "monthlyStats" =
        some (.jobj (jset ms (pyTake date 7) (.jint (m + 1))))) ∧
    (jget (update_state (update_state (update_state []
        (taggedNote "#til" "2024-01-05") "2024-01-05")
        (taggedNote "#til" "2024-01-12") "2024-01-12")
        (taggedNote "#opinion" "2024-01-20") "2024-01-20") "totalNotes" =
      some (.jint 3) ∧
     jget (update_state (update_state (update_state []
        (taggedNote "#til" "2024-01-05") "2024-01-05")
        (taggedNote "#til" "2024-01-12") "2024-01-12")
        (taggedNote "#opinion" "2024-01-20") "2024-01-20") "topics" =
      some (.jarr [.jstr "#til", .jstr "#opinion"]) ∧
     jget (update_state (update_state (update_state []
        (taggedNote "#til" "2024-01-05") "2024-01-05")
        (taggedNote "#til" "2024-01-12") "2024-01-12")
        (taggedNote "#opinion" "2024-01-20") "2024-01-20") "monthlyStats" =
      some (.jobj [("2024-01", .jint 3)])) := by
  refine ⟨?_, ?_, ?_, ?_, rfl, rfl, rfl⟩
  · intro state note date n h
    simp only [update_state]
    rw [jget_jset_ne _ "monthlyStats" "totalNotes" _ (by decide)]
    rw [jget_jset_ne _ "topics" "totalNotes" _ (by decide)]
    rw [jget_jset_self]
    rw [jget_jset_ne _ "lastPublishDate" "totalNotes" _ (by decide), h]
    simp [pyInt]
  · intro state note date h
    simp only [update_state]
    rw [jget_jset_ne _ "monthlyStats" "totalNotes" _ (by decide)]
    rw [jget_jset_ne _ "topics" "totalNotes" _ (by decide)]
    rw [jget_jset_self]
    rw [jget_jset_ne _ "lastPublishDate" "totalNotes" _ (by decide), h]
    norm_num
  · intro state note date xs t hst htags htag ht
    simp only [update_state]
    rw [jget_jset_ne _ "monthlyStats" "topics" _ (by decide)]
    rw [jget_jset_self]
    rw [jget_jset_ne _ "totalNotes" "topics" _ (by decide)]
    rw [jget_jset_ne _ "lastPublishDate" "topics" _ (by decide), hst]
    rw [htags, htag]
    simp [pyTruthy, ht, List.foldl]
  · intro state note date ms m hms hm
    simp only [update_state]
    rw [jget_jset_self]
    rw [jget_jset_ne _ "topics" "monthlyStats" _ (by decide)]
    rw [jget_jset_ne _ "totalNotes" "monthlyStats" _ (by decide)]
    rw [jget_jset_ne _ "lastPublishDate" "monthlyStats" _ (by decide), hms]
    rw [hm]
    simp [pyInt]

/-- Witness for C7: the four hypothesis-bearing branches applied at concrete
states and notes. -/
theorem c7_state_aggregation_witness :
    jget (update_state [("totalNotes", .jint 2)] (taggedNote "#til" "2024-02-03")
      "2024-02-03") "totalNotes" = some (.jint 3) ∧
    jget (update_state [] (taggedNote "#til" "2024-02-03") "2024-02-03")
      "totalNotes" = some (.jint 1) ∧
    jget (update_state [("topics", .jarr [.jstr "#opinion"])]
      (taggedNote "#til" "2024-02-03") "2024-02-03") "topics" =
      some (.jarr (if ([.jstr "#opinion"] : List JVal).any
        (fun x => jvalBeq x (.jstr "#til")) then [.jstr "#opinion"]
        else [.jstr "#opinion"] ++ [.jstr "#til"])) ∧
    jget (update_state [("monthlyStats", .jobj [("2024-02", .jint 4)])]
      (taggedNote "#til" "2024-02-03") "2024-02-03") "monthlyStats" =
      some (.jobj (jset [("2024-02", .jint 4)] (pyTake "2024-02-03" 7)
        (.jint (4 + 1)))) :=
  ⟨c7_state_aggregation.1 _ _ _ 2 rfl,
   c7_state_aggregation.2.1 _ _ _ rfl,
   c7_state_aggregation.2.2.1 _ _ _ [.jstr "#opinion"] "#til" rfl rfl rfl
     (by decide),
   c7_state_aggregation.2.2.2.1 _ _ _ [("2024-02", .jint 4)] 4 rfl rfl⟩

/-- The draft for 2024-01-01 in the concrete prepend scenario. -/
def draftJan01 : JVal := .jobj [("title", .jstr "First"), ("content", .jstr "A")]

/-- The draft for 2024-01-02 in the concrete prepend scenario. -/
def draftJan02 : JVal := .jobj [("title", .jstr "Second"), ("content", .jstr "B")]

/-- C8: update_notes inserts the published note at the head of the index and
never at the tail — for any prior contents the previous entries follow the
new note unchanged and in order — and the concrete chain publishing
2024-01-01 then 2024-01-02 through publish_main leaves the index with the
01-02 note first and the 01-01 note second. -/
theorem c8_index_prepend :
    (∀ (notes : List JVal) (note : JVal),
      update_notes (some (.jarr notes)) note = .ok (note :: notes)) ∧
    (∀ note : JVal, update_notes none note = .ok [note]) ∧
    (∀ (l : List JVal) (n1 n2 : JVal),
      update_notes (some (.jarr l)) n1 = .ok (n1 :: l) ∧
      update_notes (some (.jarr (n1 :: l))) n2 = .ok (n2 :: n1 :: l)) ∧
    ((publish_main ⟨some draftJan01, true, none, some (.jobj []), true⟩
        "2024-01-01").notesFile =
      some (.jarr [.jobj (load_fields [("title", .jstr "First"),
        ("content", .jstr "A")] "2024-01-01")]) ∧
     (publish_main ⟨some draftJan02, true,
        (publish_main ⟨some draftJan01, true, none, some (.jobj []), true⟩
          "2024-01-01").notesFile,
        some (.jobj []), true⟩ "2024-01-02").notesFile =
      some (.jarr [.jobj (load_fields [("title", .jstr "Second"),
          ("content", .jstr "B")] "2024-01-02"),
        .jobj (load_fields [("title", .jstr "First"),
          ("content", .jstr "A")] "2024-01-01")])) :=
  ⟨fun _ _ => rfl, fun _ => rfl, fun _ _ _ => ⟨rfl, rfl⟩, rfl, rfl⟩

/-- C9: when the draft exists (as an object) and the image exists but the
title is missing or falsy, publish_main exits 1 without running git, yet
notes.json and state.json hold the mutated contents: the title check of
main (publish.py line 179-181) runs only after update_notes and
update_state have written both files. -/
theorem c9_title_check_after_writes (fields : List (String × JVal))
    (l : List JVal) (fs : List (String × JVal)) (g : Bool) (date : String)
    (htitle : pyTruthy ((jget fields "title").getD .jnull) = false) :
    publish_main ⟨some (.jobj fields), true, some (.jarr l), some (.jobj fs), g⟩
      date =
      ⟨1, some (.jarr (.jobj (load_fields fields date) :: l)),
       some (.jobj (update_state fs (.jobj (load_fields fields date)) date)),
       false⟩ := by
  have ht2 : pyTruthy ((jget (load_fields fields date) "title").getD .jnull)
      = false := by
    rw [jget_load_fields_other fields date "title" (by decide) (by decide)]
    exact htitle
  simp only [publish_main, load_note, update_notes, update_state_run, noteGet]
  rw [ht2]
  simp

/-- Witness for C9 at a concrete titleless draft. -/
theorem c9_title_check_after_writes_witness :
    publish_main ⟨some (.jobj [("content", .jstr "x")]), true, some (.jarr []),
      some (.jobj []), true⟩ "2024-01-03" =
      ⟨1, some (.jarr [.jobj (load_fields [("content", .jstr "x")] "2024-01-03")]),
       some (.jobj (update_state []
         (.jobj (load_fields [("content", .jstr "x")] "2024-01-03"))
         "2024-01-03")), false⟩ :=
  c9_title_check_after_writes [("content", .jstr "x")] [] [] true "2024-01-03" rfl

theorem image_default_truthy (f1 : List (String × JVal)) (date : String) :
    pyTruthy ((jget (if pyTruthy ((jget f1 "image").getD .jnull) then f1
      else jset f1 "image" (.jstr ("images/" ++ date ++ ".webp"))) "image").getD
        .jnull) = true := by
  by_cases hi : pyTruthy ((jget f1 "image").getD .jnull) = true
  · rw [if_pos hi]
    exact hi
  · rw [if_neg hi, jget_jset_self]
    simp [pyTruthy, images_path_ne_empty date]

/-- C10: every note publish_main inserts at the head of the index is the
load_fields normalization of the draft, whose date field equals the target
date, whose image field is truthy, and whose image field is the default
images/<date>.webp whenever the draft had no truthy image. -/
theorem c10_loaded_note_invariants :
    (∀ (fields : List (String × JVal)) (date : String),
      jget (load_fields fields date) "date" = some (.jstr date)) ∧
    (∀ (fields : List (String × JVal)) (date : String),
      pyTruthy ((jget (load_fields fields date) "image").getD .jnull) = true) ∧
    (∀ (fields : List (String × JVal)) (date : String),
      pyTruthy ((jget fields "image").getD .jnull) = false →
      jget (load_fields fields date) "image" =
        some (.jstr ("images/" ++ date ++ ".webp"))) ∧
    (∀ (fields : List (String × JVal)) (l : List JVal)
        (fs : List (String × JVal)) (g : Bool) (date : String),
      (publish_main ⟨some (.jobj fields), true, some (.jarr l),
        some (.jobj fs), g⟩ date).notesFile =
        some (.jarr (.jobj (load_fields fields date) :: l))) := by
  refine ⟨?_, ?_, ?_, ?_⟩
  · intro fields date
    simp only [load_fields]
    by_cases hd : (match jget fields "date" with
        | some d => pyEqStr d date
        | none => false) = true
    · rw [if_pos hd]
      have hdate : jget fields "date" = some (.jstr date) := by
        cases hdd : jget fields "date" with
        | none => rw [hdd] at hd; simp at hd
        | some d =>
          rw [hdd] at hd
          simp only at hd
          rw [pyEqStr_true hd]
      by_cases hi : pyTruthy ((jget fields "image").getD .jnull) = true
      · rw [if_pos hi]
        exact hdate
      · rw [if_neg hi, jget_jset_ne _ "image" "date" _ (by decide)]
        exact hdate
    · rw [if_neg hd]
      by_cases hi : pyTruthy ((jget (jset fields "date" (.jstr date))
          "image").getD .jnull) = true
      · rw [if_pos hi, jget_jset_self]
      · rw [if_neg hi, jget_jset_ne _ "image" "date" _ (by decide),
          jget_jset_self]
  · intro fields date
    simp only [load_fields]
    by_cases hd : (match jget fields "date" with
        | some d => pyEqStr d date
        | none => false) = true
    · rw [if_pos hd]
      exact image_default_truthy fields date
    · rw [if_neg hd]
      exact image_default_truthy (jset fields "date" (.jstr date)) date
  · intro fields date himg
    simp only [load_fields]
    by_cases hd : (match jget fields "date" with
        | some d => pyEqStr d date
        | none => false) = true
    · rw [if_pos hd, if_neg (by simp [himg]), jget_jset_self]
    · rw [if_neg hd]
      have hsame : jget (jset fields "date" (.jstr date)) "image" =
          jget fields "image" := jget_jset_ne _ "date" "image" _ (by decide)
      rw [hsame, if_neg (by simp [himg]), jget_jset_self]
  · intro fields l fs g date
    simp only [publish_main, load_note, update_notes, update_state_run, noteGet]
    by_cases ht : pyTruthy ((jget (load_fields fields date) "title").getD
        .jnull) = true
    · rw [ht]
      cases g <;> simp
    · rw [(by simpa using ht : pyTruthy ((jget (load_fields fields date)
        "title").getD .jnull) = false)]
      simp

/-- Witness for C10 at a concrete draft with no image field. -/
theorem c10_loaded_note_invariants_witness :
    jget (load_fields [("title", .jstr "T")] "2024-01-04") "date" =
      some (.jstr "2024-01-04") ∧
    pyTruthy ((jget (load_fields [("title", .jstr "T")] "2024-01-04")
      "image").getD .jnull) = true ∧
    jget (load_fields [("title", .jstr "T")] "2024-01-04") "image" =
      some (.jstr ("images/" ++ "2024-01-04" ++ ".webp")) ∧
    (publish_main ⟨some (.jobj [("title", .jstr "T")]), true, some (.jarr []),
      some (.jobj []), true⟩ "2024-01-04").notesFile =
      some (.jarr [.jobj (load_fields [("title", .jstr "T")] "2024-01-04")]) :=
  ⟨c10_loaded_note_invariants.1 [("title", .jstr "T")] "2024-01-04",
   c10_loaded_note_invariants.2.1 [("title", .jstr "T")] "2024-01-04",
   c10_loaded_note_invariants.2.2.1 [("title", .jstr "T")] "2024-01-04" rfl,
   c10_loaded_note_invariants.2.2.2 [("title", .jstr "T")] [] [] true "2024-01-04"⟩
